import Mathlib

/-!
Shallow embedding of the inter-service call layer of the galaxy template
(`src/lib/galaxy-utils.ts` in its two parts: utility predicates and the
fetcher module, plus the core orchestration API route in
`src/app/api/feature/route.ts`).

Network effects are modelled by an environment: each logical call is given
a function `Nat → AttemptEvent` describing what happens on each fetch
attempt (a response from the server, a connection error, or the expiry of
the call's timeout timer).  The shared `AbortController` / `setTimeout`
pair that the source creates once per `callFeatureAPI` invocation is
modelled explicitly as a small state (`TState`) threaded through the
retry loop, because its sharing across attempts is observable behaviour.
-/

namespace Galaxy

/-- JSON-like values, enough to model the request/response bodies the
source builds with object spreads. -/
inductive JVal where
  | jnull : JVal
  | jbool : Bool → JVal
  | jnum : Int → JVal
  | jstr : String → JVal
  | jobj : List (String × JVal) → JVal

/-- A JSON object body: an ordered field list, first occurrence of a key
is the binding (JS objects cannot hold duplicate keys; `objSet` keeps
this invariant). -/
abbrev JObj := List (String × JVal)

/-- Does the object have a field named `k`? -/
def hasKey {α : Type} (o : List (String × α)) (k : String) : Bool :=
  o.any (fun p => decide (p.1 = k))

/-- Field lookup (first binding wins, as in a JS object). -/
def getField {α : Type} (o : List (String × α)) (k : String) : Option α :=
  (o.find? (fun p => decide (p.1 = k))).map Prod.snd

/-- JS object-spread update `\x7b...o, k: v\x7d`: an existing key keeps its
position and gets the new value, a new key is appended. -/
def objSet {α : Type} (o : List (String × α)) (k : String) (v : α) : List (String × α) :=
  if hasKey o k then o.map (fun p => if p.1 = k then (k, v) else p)
  else o ++ [(k, v)]

/-- JS `a || b` for an optional string `a` (absent and the empty string
are falsy). -/
def jsOrElse (o : Option String) (d : String) : String :=
  match o with
  | some s => if s = "" then d else s
  | none => d

/-- The `type` field of `galaxyConfig`: `'core' | 'feature'`. -/
inductive AppType where
  | core : AppType
  | feature : AppType
deriving DecidableEq

/-- The `FeatureAPIResponse` shape of the fetcher module. -/
structure CallResult where
  success : Bool
  data : Option JVal
  error : Option String
  message : Option String

/-- An HTTP response as seen by one fetch attempt: `ok` is the 2xx flag,
`bodyError`/`bodyMessage` are the `error`/`message` fields of the parsed
error body (absent when the body lacks them or is unparseable), `data`
the parsed success body. -/
structure FetchResp where
  ok : Bool
  status : Nat
  bodyError : Option String
  bodyMessage : Option String
  data : JVal

/-- What the environment makes happen during one fetch attempt (when the
call's shared abort signal is still live): the server responds, the
connection fails with an `Error` carrying `m`, or the call's timeout
timer fires. -/
inductive AttemptEvent where
  | response : FetchResp → AttemptEvent
  | netFail : String → AttemptEvent
  | timerFire : AttemptEvent

/-- Is the event a server response? -/
def AttemptEvent.isResp : AttemptEvent → Bool
  | .response _ => true
  | _ => false

/-- How one fetch attempt ended, as observed by the retry loop: a
response object, an `AbortError`, or another `Error` with message `m`. -/
inductive AttemptOutcome where
  | gotResponse : FetchResp → AttemptOutcome
  | abortedOut : AttemptOutcome
  | failedOut : String → AttemptOutcome

/-- State of the one `AbortController` and the one `setTimeout` timer
that `callFeatureAPI` creates before its retry loop. -/
structure TState where
  aborted : Bool
  timerActive : Bool

/-- Outcome of a single `fetch` given the attempt's event and the shared
controller/timer state: an already-aborted signal rejects immediately
with `AbortError`; a timer expiry aborts the controller; otherwise the
event decides.  (A `timerFire` event when the timer was already cleared
cannot occur; it is read as a plain network failure to keep the function
total.) -/
def fetchOutcome (ev : AttemptEvent) (st : TState) : AttemptOutcome :=
  if st.aborted then .abortedOut
  else
    match ev with
    | .response r => .gotResponse r
    | .netFail m => .failedOut m
    | .timerFire => if st.timerActive then .abortedOut else .failedOut "fetch failed"

/-- Controller/timer state after the attempt: receiving a response runs
`clearTimeout`; a timer expiry marks the controller aborted and the
timer spent.  Nothing ever un-aborts the controller. -/
def fetchNext (ev : AttemptEvent) (st : TState) : TState :=
  if st.aborted then st
  else
    match ev with
    | .response _ => ⟨st.aborted, false⟩
    | .netFail _ => st
    | .timerFire => if st.timerActive then ⟨true, false⟩ else st

/-- Result of running the retry loop: the returned `FeatureAPIResponse`,
the per-attempt outcomes in order, and the total backoff slept (in
seconds). -/
structure RunOut where
  result : CallResult
  outcomes : List AttemptOutcome
  sleepSec : Nat

/-- The `for (let attempt = 0; attempt < retries; attempt++)` loop of
`callFeatureAPI`, fuelled by the remaining attempt count
(`fuel = retries - attempt`).  Mirrors the source: a response is
returned at once (2xx as success, non-2xx as an immediate failure built
from the parsed error body); a thrown error on the last attempt returns
the `AbortError` / other-`Error` results; otherwise the loop sleeps
`2^attempt` seconds and retries.  Falling out of the loop (only possible
when `retries = 0`, since `lastError` is still `null`) yields the
`'Unknown error' / 'All retry attempts failed'` result. -/
def attemptLoop (env : Nat → AttemptEvent) (timeoutMs : Nat) :
    Nat → TState → Nat → RunOut
  | _, _, 0 =>
    ⟨⟨false, none, some "Unknown error", some "All retry attempts failed"⟩, [], 0⟩
  | attempt, st, fuel + 1 =>
    match fetchOutcome (env attempt) st with
    | .gotResponse r =>
      if r.ok then
        ⟨⟨true, some r.data, none, none⟩, [.gotResponse r], 0⟩
      else
        ⟨⟨false, none,
          some (jsOrElse r.bodyError ("API request failed with status " ++ toString r.status)),
          r.bodyMessage⟩, [.gotResponse r], 0⟩
    | .abortedOut =>
      if fuel = 0 then
        ⟨⟨false, none, some "Request timeout",
          some ("The request took longer than " ++ toString timeoutMs ++ "ms")⟩,
          [.abortedOut], 0⟩
      else
        let rest := attemptLoop env timeoutMs (attempt + 1) (fetchNext (env attempt) st) fuel
        ⟨rest.result, .abortedOut :: rest.outcomes, 2 ^ attempt + rest.sleepSec⟩
    | .failedOut m =>
      if fuel = 0 then
        ⟨⟨false, none, some m, some "Failed to connect to feature API"⟩, [.failedOut m], 0⟩
      else
        let rest := attemptLoop env timeoutMs (attempt + 1) (fetchNext (env attempt) st) fuel
        ⟨rest.result, .failedOut m :: rest.outcomes, 2 ^ attempt + rest.sleepSec⟩

/-- The `_metadata` object `callFeatureAPI` injects into every request
body (`timestamp` is supplied as a parameter since wall-clock time is
external). -/
def metadataVal (role : AppType) (ts : String) : JVal :=
  .jobj [("callerType", .jstr (match role with | .core => "core" | .feature => "feature")),
         ("timestamp", .jstr ts)]

/-- A full `callFeatureAPI` invocation: the wire body actually sent, the
returned result, the attempt trace and the backoff total.  The
controller starts un-aborted with the timer pending, exactly once for
the whole call. -/
structure CallOutput where
  result : CallResult
  bodySent : JObj
  outcomes : List AttemptOutcome
  sleepSec : Nat

/-- The call `callFeatureAPI(endpoint, payload, \x7b timeout, retries \x7d)`.  The
`headers`/`includeAuth` options only alter HTTP headers and are not
modelled; the endpoint itself is abstracted into `env`. -/
def callFeatureAPI (role : AppType) (ts : String) (env : Nat → AttemptEvent)
    (payload : JObj) (timeoutMs : Nat) (retries : Nat) : CallOutput :=
  let body := objSet payload "_metadata" (metadataVal role ts)
  let r := attemptLoop env timeoutMs 0 ⟨false, true⟩ retries
  ⟨r.result, body, r.outcomes, r.sleepSec⟩

/-- One `related` entry of the galaxy config. -/
structure FeatureDescriptor where
  id : String
  name : String
  url : String
  apiEndpoint : Option String

/-- The parts of `galaxyConfig` this layer reads (`related` absent is
modelled as the empty list, matching the source's `?.… || []`). -/
structure GalaxyConfig where
  id : String
  name : String
  type : AppType
  related : List FeatureDescriptor

/-- The `summary` object of an orchestration result. -/
structure OrchSummary where
  total : Nat
  successful : Nat
  failed : Nat

/-- Return shape of `orchestrateFeatures` on the non-throwing path. -/
structure OrchestrationResult where
  success : Bool
  results : List (String × CallResult)
  summary : OrchSummary

/-- Observable behaviour of one `orchestrateFeatures` invocation:
`outcome` is `.error msg` when the source `throw`s and `.ok` otherwise;
`attempted` lists each network call actually issued as
`(endpoint, wire body)`. -/
structure OrchOutput where
  outcome : Except String OrchestrationResult
  attempted : List (String × JObj)

/-- The call `orchestrateFeatures(featureIds, payload)`.  `netEnv` gives the
attempt environment for each endpoint; the per-feature calls use
`callFeatureAPI`'s defaults (`timeout 30000`, `retries 1`). -/
def orchestrateFeatures (cfg : GalaxyConfig) (ts : String)
    (netEnv : String → Nat → AttemptEvent) (featureIds : List String)
    (payload : JObj) : OrchOutput :=
  if cfg.type ≠ AppType.core then
    ⟨.error "Orchestration is only available for core apps", []⟩
  else
    let features := cfg.related.filter
      (fun f => featureIds.contains f.id && f.apiEndpoint.isSome)
    let responses := features.map (fun f =>
      let ep := f.apiEndpoint.getD ""
      (f.id, ep, callFeatureAPI cfg.type ts (netEnv ep) payload 30000 1))
    let results := responses.foldl (fun acc x => objSet acc x.1 x.2.2.result) []
    let successful := (results.filter (fun p => p.2.success)).length
    let failed := (results.filter (fun p => !p.2.success)).length
    ⟨.ok { success := decide (0 < successful), results := results,
           summary := ⟨features.length, successful, failed⟩ },
     responses.map (fun x => (x.2.1, x.2.2.bodySent))⟩

/-- Observable behaviour of one `callSiblingFeature` invocation:
`attempted` is the `(endpoint, wire body)` of the network call, when one
was issued. -/
structure SiblingOutput where
  result : CallResult
  attempted : Option (String × JObj)

/-- The `_caller` object `callSiblingFeature` injects into the payload
before delegating. -/
def callerVal (cfg : GalaxyConfig) : JVal :=
  .jobj [("id", .jstr cfg.id), ("name", .jstr cfg.name), ("type", .jstr "sibling")]

/-- The call `callSiblingFeature(siblingId, payload)`. -/
def callSiblingFeature (cfg : GalaxyConfig) (ts : String)
    (netEnv : String → Nat → AttemptEvent) (siblingId : String)
    (payload : JObj) : SiblingOutput :=
  if cfg.type ≠ AppType.feature then
    ⟨⟨false, none, some "Sibling calls are only available for feature apps",
      some "Core apps should use orchestrateFeatures instead"⟩, none⟩
  else
    match cfg.related.find? (fun f => decide (f.id = siblingId)) with
    | none =>
      ⟨⟨false, none, some ("Sibling feature " ++ siblingId ++ " not found"),
        some "This feature is not configured as a sibling"⟩, none⟩
    | some sibling =>
      match sibling.apiEndpoint with
      | none =>
        ⟨⟨false, none, some ("Sibling " ++ siblingId ++ " does not have an API endpoint"),
          some "This sibling feature may not support API calls"⟩, none⟩
      | some ep =>
        let enhanced := objSet payload "_caller" (callerVal cfg)
        let out := callFeatureAPI cfg.type ts (netEnv ep) enhanced 30000 1
        ⟨out.result, some (ep, out.bodySent)⟩

/-- Response classes of the core orchestration route handler `POST` in
`src/app/api/feature/route.ts`. -/
inductive PostOutcome where
  | unauthorized : PostOutcome
  | notCore : PostOutcome
  | invalidFeatures : PostOutcome
  | noValidFeatures : PostOutcome
  | orchestrated : List (String × CallResult) → OrchSummary → PostOutcome

/-- Observable behaviour of the route handler: its response class plus
each `(endpoint, wire body)` dispatched. -/
structure PostOutput where
  outcome : PostOutcome
  attempted : List (String × JObj)

/-- The orchestration route `POST(request)`.  `userId` is the
authentication result, `featuresArr` is `none` when the request body has
no `features` array. -/
def orchestrationPOST (cfg : GalaxyConfig) (userId : Option String)
    (featuresArr : Option (List String)) (payload : JObj) (ts : String)
    (netEnv : String → Nat → AttemptEvent) : PostOutput :=
  match userId with
  | none => ⟨.unauthorized, []⟩
  | some uid =>
    if cfg.type ≠ AppType.core then ⟨.notCore, []⟩
    else
      match featuresArr with
      | none => ⟨.invalidFeatures, []⟩
      | some features =>
        let availableFeatures := cfg.related.filter
          (fun f => f.apiEndpoint.isSome && features.contains f.id)
        if availableFeatures.isEmpty then ⟨.noValidFeatures, []⟩
        else
          let augmented :=
            objSet (objSet (objSet payload "calledFrom" (.jstr "galaxy-core"))
              "coreId" (.jstr cfg.id)) "userId" (.jstr uid)
          let calls := availableFeatures.map (fun f =>
            let ep := f.apiEndpoint.getD ""
            (f, ep, callFeatureAPI cfg.type ts (netEnv ep) augmented 30000 1))
          let called := calls.map (fun c => (c.1.id, c.2.2.result))
          let summary : OrchSummary :=
            ⟨calls.length, (calls.filter (fun c => c.2.2.result.success)).length,
             (calls.filter (fun c => !c.2.2.result.success)).length⟩
          ⟨.orchestrated called summary, calls.map (fun c => (c.2.1, c.2.2.bodySent))⟩

/-- The first replace, `endpoint.replace(/\/[^\/]*$/, '/health')` — replaces everything from
the last `'/'` (inclusive) to the end with `"/health"`; `none` when the
string has no `'/'` (the regex does not match). -/
def replaceFinalSeg : List Char → Option (List Char)
  | [] => none
  | c :: rest =>
    match replaceFinalSeg rest with
    | some r => some (c :: r)
    | none => if c = '/' then some ('/' :: "health".data) else none

/-- The second replace, `.replace(/\/$/, '')` — drops one trailing `'/'`. -/
def stripTrailingSlash (cs : List Char) : List Char :=
  match cs.reverse with
  | c :: rest => if c = '/' then rest.reverse else cs
  | [] => cs

/-- Is `pat` a leading segment of `cs`? -/
def leadsWith : List Char → List Char → Bool
  | [], _ => true
  | _ :: _, [] => false
  | a :: as, b :: bs => a = b && leadsWith as bs

/-- Substring test of `String.prototype.includes`: does `pat` occur inside `cs`? -/
def hasSubstr (pat : List Char) : List Char → Bool
  | [] => leadsWith pat []
  | c :: rest => leadsWith pat (c :: rest) || hasSubstr pat rest

/-- The health-check URL `checkFeatureHealth` derives:
`endpoint.replace(/\/[^\/]*$/, '/health').replace(/\/$/, '') +
(endpoint.includes('/api/') ? '' : '/health')`. -/
def deriveHealthUrl (endpoint : String) : String :=
  let step1 := (replaceFinalSeg endpoint.data).getD endpoint.data
  let step2 := stripTrailingSlash step1
  ⟨step2 ++ (if hasSubstr "/api/".data endpoint.data then [] else "/health".data)⟩

/-- The URL the spec describes: `apiEndpoint` with its final path
segment replaced by `health` (identity when there is no path separator
to cut at).  Stated from the spec's words, for comparison with
`deriveHealthUrl`. -/
def specHealthUrl (endpoint : String) : String :=
  ⟨(replaceFinalSeg endpoint.data).getD endpoint.data⟩

/-- The probe `checkFeatureHealth(endpoint)`: GET the derived URL (the environment
maps a URL to the response status, `none` for a network error or
timeout) and report `response.ok`. -/
def checkFeatureHealth (healthEnv : String → Option Nat) (endpoint : String) : Bool :=
  match healthEnv (deriveHealthUrl endpoint) with
  | some status => decide (200 ≤ status) && decide (status < 300)
  | none => false

/-! ### Helper lemmas about the JS-object model -/

theorem hasKey_iff {α : Type} (o : List (String × α)) (k : String) :
    hasKey o k = true ↔ ∃ v, (k, v) ∈ o := by
  simp only [hasKey, List.any_eq_true, decide_eq_true_eq]
  constructor
  · rintro ⟨p, hp, he⟩
    exact ⟨p.2, by rw [← he]; exact hp⟩
  · rintro ⟨v, hv⟩
    exact ⟨(k, v), hv, rfl⟩

theorem find_map_replace {α : Type} (o : List (String × α)) (k : String) (v : α)
    (h : hasKey o k = true) :
    (o.map (fun p => if p.1 = k then (k, v) else p)).find?
      (fun p => decide (p.1 = k)) = some (k, v) := by
  induction o with
  | nil => simp [hasKey] at h
  | cons p rest ih =>
    by_cases hp : p.1 = k
    · simp [hp]
    · have h' : hasKey rest k = true := by
        simpa [hasKey, hp] using h
      simpa [hp] using ih h'

theorem find_append_single {α : Type} (o : List (String × α)) (k : String) (v : α)
    (h : hasKey o k = false) :
    (o ++ [(k, v)]).find? (fun p => decide (p.1 = k)) = some (k, v) := by
  induction o with
  | nil => simp
  | cons p rest ih =>
    have hp : ¬ (p.1 = k) := by
      intro he
      simp [hasKey, he] at h
    have h' : hasKey rest k = false := by
      simp only [hasKey, List.any_cons, Bool.or_eq_false_iff] at h
      exact h.2
    simpa [hp] using ih h'

theorem getField_objSet_self {α : Type} (o : List (String × α)) (k : String) (v : α) :
    getField (objSet o k v) k = some v := by
  unfold getField objSet
  by_cases h : hasKey o k
  · rw [if_pos h, find_map_replace o k v h]
    rfl
  · rw [if_neg h, find_append_single o k v (by simpa using h)]
    rfl

theorem find_map_replace_ne {α : Type} (o : List (String × α)) (k k' : String) (v : α)
    (hne : k' ≠ k) :
    (o.map (fun p => if p.1 = k then (k, v) else p)).find? (fun p => decide (p.1 = k')) =
      o.find? (fun p => decide (p.1 = k')) := by
  induction o with
  | nil => simp
  | cons p rest ih =>
    rw [List.map_cons]
    by_cases hp : p.1 = k
    · rw [if_pos hp]
      rw [List.find?_cons_of_neg _ (by simp; exact fun he => hne he.symm)]
      rw [List.find?_cons_of_neg _ (by simp; exact fun he => hne (hp.symm.trans he).symm)]
      exact ih
    · rw [if_neg hp]
      by_cases hp' : p.1 = k'
      · rw [List.find?_cons_of_pos _ (by simpa using hp'),
          List.find?_cons_of_pos _ (by simpa using hp')]
      · rw [List.find?_cons_of_neg _ (by simpa using hp'),
          List.find?_cons_of_neg _ (by simpa using hp')]
        exact ih

theorem getField_objSet_ne {α : Type} (o : List (String × α)) (k k' : String) (v : α)
    (hne : k' ≠ k) :
    getField (objSet o k v) k' = getField o k' := by
  unfold getField objSet
  by_cases h : hasKey o k
  · rw [if_pos h, find_map_replace_ne o k k' v hne]
  · rw [if_neg h]
    have hkk : ¬ (k = k') := fun he => hne he.symm
    have hlast : ([(k, v)] : List (String × α)).find? (fun p => decide (p.1 = k')) = none := by
      simp [hkk]
    rw [List.find?_append, hlast]
    cases o.find? (fun p => decide (p.1 = k')) <;> simp

theorem mem_objSet_iff {α : Type} (o : List (String × α)) (k k' : String) (v : α) :
    (∃ w, (k', w) ∈ objSet o k v) ↔ (∃ w, (k', w) ∈ o) ∨ k' = k := by
  unfold objSet
  by_cases h : hasKey o k
  · rw [if_pos h]
    constructor
    · rintro ⟨w, hw⟩
      rw [List.mem_map] at hw
      obtain ⟨p, hp, he⟩ := hw
      by_cases hpk : p.1 = k
      · right
        rw [if_pos hpk] at he
        exact (congrArg Prod.fst he).symm
      · left
        rw [if_neg hpk] at he
        exact ⟨w, he ▸ hp⟩
    · rintro (⟨w, hw⟩ | rfl)
      · by_cases hk : k' = k
        · subst hk
          obtain ⟨v₀, hv₀⟩ := (hasKey_iff o k').mp h
          refine ⟨v, ?_⟩
          rw [List.mem_map]
          exact ⟨(k', v₀), hv₀, by simp⟩
        · refine ⟨w, ?_⟩
          rw [List.mem_map]
          exact ⟨(k', w), hw, by simp [hk]⟩
      · obtain ⟨v₀, hv₀⟩ := (hasKey_iff o k').mp h
        refine ⟨v, ?_⟩
        rw [List.mem_map]
        exact ⟨(k', v₀), hv₀, by simp⟩
  · rw [if_neg h]
    constructor
    · rintro ⟨w, hw⟩
      rw [List.mem_append] at hw
      rcases hw with hw | hw
      · exact Or.inl ⟨w, hw⟩
      · simp only [List.mem_singleton, Prod.mk.injEq] at hw
        exact Or.inr hw.1
    · rintro (⟨w, hw⟩ | rfl)
      · exact ⟨w, List.mem_append.mpr (Or.inl hw)⟩
      · exact ⟨v, List.mem_append.mpr (Or.inr (by simp))⟩

/-! ### Helper lemmas about the retry loop -/

theorem getLast?_cons_of_ne_nil {α : Type} (a : α) (l : List α) (h : l ≠ []) :
    (a :: l).getLast? = l.getLast? := by
  cases l with
  | nil => exact absurd rfl h
  | cons b bs => exact List.getLast?_cons_cons

/-- Unfolding equation: an attempt that receives a response returns at
once. -/
theorem attemptLoop_succ_resp (env : Nat → AttemptEvent) (t attempt : Nat) (st : TState)
    (fuel : Nat) (r : FetchResp) (h : fetchOutcome (env attempt) st = .gotResponse r) :
    attemptLoop env t attempt st (fuel + 1) =
      if r.ok then
        ⟨⟨true, some r.data, none, none⟩, [.gotResponse r], 0⟩
      else
        ⟨⟨false, none,
          some (jsOrElse r.bodyError ("API request failed with status " ++ toString r.status)),
          r.bodyMessage⟩, [.gotResponse r], 0⟩ := by
  rw [attemptLoop, h]

/-- Unfolding equation: an aborted attempt either fails the whole call
(last attempt) or backs off and retries. -/
theorem attemptLoop_succ_aborted (env : Nat → AttemptEvent) (t attempt : Nat) (st : TState)
    (fuel : Nat) (h : fetchOutcome (env attempt) st = .abortedOut) :
    attemptLoop env t attempt st (fuel + 1) =
      if fuel = 0 then
        ⟨⟨false, none, some "Request timeout",
          some ("The request took longer than " ++ toString t ++ "ms")⟩, [.abortedOut], 0⟩
      else
        ⟨(attemptLoop env t (attempt + 1) (fetchNext (env attempt) st) fuel).result,
         .abortedOut :: (attemptLoop env t (attempt + 1) (fetchNext (env attempt) st) fuel).outcomes,
         2 ^ attempt + (attemptLoop env t (attempt + 1) (fetchNext (env attempt) st) fuel).sleepSec⟩ := by
  rw [attemptLoop, h]

/-- Unfolding equation: a connection-error attempt either fails the
whole call (last attempt) or backs off and retries. -/
theorem attemptLoop_succ_failed (env : Nat → AttemptEvent) (t attempt : Nat) (st : TState)
    (fuel : Nat) (m : String) (h : fetchOutcome (env attempt) st = .failedOut m) :
    attemptLoop env t attempt st (fuel + 1) =
      if fuel = 0 then
        ⟨⟨false, none, some m, some "Failed to connect to feature API"⟩, [.failedOut m], 0⟩
      else
        ⟨(attemptLoop env t (attempt + 1) (fetchNext (env attempt) st) fuel).result,
         .failedOut m :: (attemptLoop env t (attempt + 1) (fetchNext (env attempt) st) fuel).outcomes,
         2 ^ attempt + (attemptLoop env t (attempt + 1) (fetchNext (env attempt) st) fuel).sleepSec⟩ := by
  rw [attemptLoop, h]

theorem sum_two_pow (m : Nat) :
    Finset.sum (Finset.range m) (fun k => 2 ^ k) = 2 ^ m - 1 := by
  induction m with
  | zero => simp
  | succ m ih =>
    rw [Finset.sum_range_succ, ih, pow_succ]
    have h : 0 < 2 ^ m := pow_pos (by norm_num) m
    omega

theorem fetchOutcome_of_not_resp (ev : AttemptEvent) (st : TState)
    (h : ev.isResp = false) :
    fetchOutcome ev st = .abortedOut ∨ ∃ m, fetchOutcome ev st = .failedOut m := by
  by_cases ha : st.aborted
  · left
    simp [fetchOutcome, ha]
  · cases ev with
    | response r => simp [AttemptEvent.isResp] at h
    | netFail m =>
      right
      exact ⟨m, by simp [fetchOutcome, ha]⟩
    | timerFire =>
      by_cases ht : st.timerActive
      · left
        simp [fetchOutcome, ha, ht]
      · right
        exact ⟨"fetch failed", by simp [fetchOutcome, ha, ht]⟩

theorem fetchOutcome_of_aborted (ev : AttemptEvent) (st : TState)
    (h : st.aborted = true) : fetchOutcome ev st = .abortedOut := by
  simp [fetchOutcome, h]

theorem fetchNext_of_aborted (ev : AttemptEvent) (st : TState)
    (h : st.aborted = true) : fetchNext ev st = st := by
  simp [fetchNext, h]

theorem fetchNext_aborted_of_abortedOut (ev : AttemptEvent) (st : TState)
    (h : fetchOutcome ev st = .abortedOut) : (fetchNext ev st).aborted = true := by
  by_cases ha : st.aborted
  · rw [fetchNext_of_aborted ev st ha]
    exact ha
  · cases ev with
    | response r => simp [fetchOutcome, ha] at h
    | netFail m => simp [fetchOutcome, ha] at h
    | timerFire =>
      by_cases ht : st.timerActive
      · simp [fetchNext, ha, ht]
      · simp [fetchOutcome, ha, ht] at h

/-- Once the shared controller is aborted, every remaining attempt ends
in `AbortError`. -/
theorem attemptLoop_all_aborted (env : Nat → AttemptEvent) (t : Nat) :
    ∀ fuel attempt st, st.aborted = true →
    ∀ o ∈ (attemptLoop env t attempt st fuel).outcomes, o = AttemptOutcome.abortedOut := by
  intro fuel
  induction fuel with
  | zero =>
    intro attempt st _ o ho
    simp [attemptLoop] at ho
  | succ f ih =>
    intro attempt st hab o ho
    have hout := fetchOutcome_of_aborted (env attempt) st hab
    rw [attemptLoop_succ_aborted env t attempt st f hout] at ho
    by_cases hf : f = 0
    · rw [if_pos hf] at ho
      simpa using ho
    · rw [if_neg hf] at ho
      simp only [List.mem_cons] at ho
      rcases ho with rfl | ho
      · rfl
      · exact ih (attempt + 1) _ (by rw [fetchNext_of_aborted (env attempt) st hab]; exact hab) o ho

/-- An attempt that ends aborted leaves every later attempt aborted:
the call has a single cancellation token shared across attempts. -/
theorem attemptLoop_abort_sticky (env : Nat → AttemptEvent) (t : Nat) :
    ∀ fuel attempt st i j x, i < j →
    (attemptLoop env t attempt st fuel).outcomes.get? i = some AttemptOutcome.abortedOut →
    (attemptLoop env t attempt st fuel).outcomes.get? j = some x →
    x = AttemptOutcome.abortedOut := by
  intro fuel
  induction fuel with
  | zero =>
    intro attempt st i j x _ hi _
    simp [attemptLoop] at hi
  | succ f ih =>
    intro attempt st i j x hij hi hj
    obtain ⟨j', rfl⟩ : ∃ j', j = j' + 1 := ⟨j - 1, by omega⟩
    rcases hout : fetchOutcome (env attempt) st with r | _ | m
    · -- response: singleton trace, `i < j` leaves no room
      rw [attemptLoop_succ_resp env t attempt st f r hout] at hj
      by_cases hr : r.ok <;> simp [hr] at hj
    · rw [attemptLoop_succ_aborted env t attempt st f hout] at hi hj
      by_cases hf : f = 0
      · rw [if_pos hf] at hj
        simp at hj
      · rw [if_neg hf] at hi hj
        rw [List.get?_cons_succ] at hj
        cases i with
        | zero =>
          have habn := fetchNext_aborted_of_abortedOut (env attempt) st hout
          have hx := List.get?_mem hj
          exact attemptLoop_all_aborted env t f (attempt + 1) _ habn x hx
        | succ i' =>
          rw [List.get?_cons_succ] at hi
          exact ih (attempt + 1) _ i' j' x (by omega) hi hj
    · rw [attemptLoop_succ_failed env t attempt st f m hout] at hi hj
      by_cases hf : f = 0
      · rw [if_pos hf] at hj
        simp at hj
      · rw [if_neg hf] at hi hj
        rw [List.get?_cons_succ] at hj
        cases i with
        | zero => simp at hi
        | succ i' =>
          rw [List.get?_cons_succ] at hi
          exact ih (attempt + 1) _ i' j' x (by omega) hi hj

/-- Against an environment that never produces a response, the loop
makes exactly `fuel` attempts, sleeps the full exponential backoff, and
returns a failure labelled by its last attempt's outcome. -/
theorem attemptLoop_transport (env : Nat → AttemptEvent) (t : Nat)
    (H : ∀ k, (env k).isResp = false) :
    ∀ fuel attempt st, 0 < fuel →
      ((attemptLoop env t attempt st fuel).outcomes.length = fuel ∧
       (attemptLoop env t attempt st fuel).sleepSec = 2 ^ attempt * (2 ^ (fuel - 1) - 1) ∧
       (attemptLoop env t attempt st fuel).result.success = false ∧
       (((attemptLoop env t attempt st fuel).outcomes.getLast? = some AttemptOutcome.abortedOut ∧
         (attemptLoop env t attempt st fuel).result.error = some "Request timeout") ∨
        (∃ m, (attemptLoop env t attempt st fuel).outcomes.getLast? =
            some (AttemptOutcome.failedOut m) ∧
          (attemptLoop env t attempt st fuel).result.error = some m))) := by
  intro fuel
  induction fuel with
  | zero => intro attempt st h; omega
  | succ f ih =>
    intro attempt st _
    by_cases hf : f = 0
    · subst hf
      rcases fetchOutcome_of_not_resp (env attempt) st (H attempt) with hout | ⟨m, hout⟩
      · rw [attemptLoop_succ_aborted env t attempt st 0 hout, if_pos rfl]
        refine ⟨rfl, by simp, rfl, Or.inl ⟨rfl, rfl⟩⟩
      · rw [attemptLoop_succ_failed env t attempt st 0 m hout, if_pos rfl]
        refine ⟨rfl, by simp, rfl, Or.inr ⟨m, rfl, rfl⟩⟩
    · have hpos : 0 < f := Nat.pos_of_ne_zero hf
      obtain ⟨f', rfl⟩ : ∃ f', f = f' + 1 := ⟨f - 1, by omega⟩
      have harith : 2 ^ attempt + 2 ^ (attempt + 1) * (2 ^ f' - 1) =
          2 ^ attempt * (2 ^ (f' + 1) - 1) := by
        have h1 : 0 < 2 ^ f' := pow_pos (by norm_num) f'
        obtain ⟨b, hb⟩ : ∃ b, 2 ^ f' = b + 1 := ⟨2 ^ f' - 1, by omega⟩
        rw [pow_succ, pow_succ, hb]
        have h2 : (b + 1) * 2 - 1 = 2 * b + 1 := by omega
        have h3 : b + 1 - 1 = b := by omega
        rw [h2, h3]
        ring
      rcases fetchOutcome_of_not_resp (env attempt) st (H attempt) with hout | ⟨m, hout⟩
      · rw [attemptLoop_succ_aborted env t attempt st (f' + 1) hout, if_neg hf]
        obtain ⟨hlen, hsleep, hsucc, hlast⟩ := ih (attempt + 1) (fetchNext (env attempt) st) hpos
        have hne : (attemptLoop env t (attempt + 1) (fetchNext (env attempt) st) (f' + 1)).outcomes ≠ [] := by
          intro hnil
          rw [hnil] at hlen
          simp at hlen
        refine ⟨by simp [hlen], ?_, hsucc, ?_⟩
        · rw [hsleep]
          simp only [Nat.add_sub_cancel]
          exact harith
        · rw [getLast?_cons_of_ne_nil _ _ hne]
          exact hlast
      · rw [attemptLoop_succ_failed env t attempt st (f' + 1) m hout, if_neg hf]
        obtain ⟨hlen, hsleep, hsucc, hlast⟩ := ih (attempt + 1) (fetchNext (env attempt) st) hpos
        have hne : (attemptLoop env t (attempt + 1) (fetchNext (env attempt) st) (f' + 1)).outcomes ≠ [] := by
          intro hnil
          rw [hnil] at hlen
          simp at hlen
        refine ⟨by simp [hlen], ?_, hsucc, ?_⟩
        · rw [hsleep]
          simp only [Nat.add_sub_cancel]
          exact harith
        · rw [getLast?_cons_of_ne_nil _ _ hne]
          exact hlast

/-- A response observed at position `k` of the trace is the final
attempt, and, when it is a non-2xx response, determines the returned
failure exactly. -/
theorem attemptLoop_resp_immediate (env : Nat → AttemptEvent) (t : Nat) :
    ∀ fuel attempt st k r,
      (attemptLoop env t attempt st fuel).outcomes.get? k = some (AttemptOutcome.gotResponse r) →
      ((attemptLoop env t attempt st fuel).outcomes.length = k + 1 ∧
       (r.ok = false →
         (attemptLoop env t attempt st fuel).result =
           ⟨false, none,
            some (jsOrElse r.bodyError ("API request failed with status " ++ toString r.status)),
            r.bodyMessage⟩)) := by
  intro fuel
  induction fuel with
  | zero =>
    intro attempt st k r hk
    simp [attemptLoop] at hk
  | succ f ih =>
    intro attempt st k r hk
    rcases hout : fetchOutcome (env attempt) st with r0 | _ | m
    · rw [attemptLoop_succ_resp env t attempt st f r0 hout] at hk ⊢
      by_cases hr : r0.ok
      · rw [if_pos hr] at hk ⊢
        cases k with
        | zero =>
          simp only [List.get?_cons_zero, Option.some.injEq, AttemptOutcome.gotResponse.injEq] at hk
          subst hk
          exact ⟨rfl, fun hcontra => by rw [hr] at hcontra; cases hcontra⟩
        | succ k' => simp at hk
      · rw [if_neg hr] at hk ⊢
        cases k with
        | zero =>
          simp only [List.get?_cons_zero, Option.some.injEq, AttemptOutcome.gotResponse.injEq] at hk
          subst hk
          exact ⟨rfl, fun _ => rfl⟩
        | succ k' => simp at hk
    · rw [attemptLoop_succ_aborted env t attempt st f hout] at hk ⊢
      by_cases hf : f = 0
      · rw [if_pos hf] at hk
        cases k with
        | zero => simp at hk
        | succ k' => simp at hk
      · rw [if_neg hf] at hk ⊢
        cases k with
        | zero => simp at hk
        | succ k' =>
          rw [List.get?_cons_succ] at hk
          obtain ⟨hlen, hres⟩ := ih (attempt + 1) (fetchNext (env attempt) st) k' r hk
          exact ⟨by simp [hlen], hres⟩
    · rw [attemptLoop_succ_failed env t attempt st f m hout] at hk ⊢
      by_cases hf : f = 0
      · rw [if_pos hf] at hk
        cases k with
        | zero => simp at hk
        | succ k' => simp at hk
      · rw [if_neg hf] at hk ⊢
        cases k with
        | zero => simp at hk
        | succ k' =>
          rw [List.get?_cons_succ] at hk
          obtain ⟨hlen, hres⟩ := ih (attempt + 1) (fetchNext (env attempt) st) k' r hk
          exact ⟨by simp [hlen], hres⟩

/-! ### Concrete fixtures used by counterexamples and witnesses -/

/-- An environment in which every fetch attempt hits a connection
error. -/
def envRefused : Nat → AttemptEvent := fun _ => .netFail "refused"

/-- Endpoint-indexed environment in which every call's every attempt
hits a connection error. -/
def netEnvRefused : String → Nat → AttemptEvent := fun _ => envRefused

/-- A 200 response with a null body. -/
def respOK : FetchResp := ⟨true, 200, none, none, .jnull⟩

/-- The timer fires during attempt 0; from attempt 1 on, the server
would answer 200. -/
def envTimerThenOK : Nat → AttemptEvent :=
  fun k => if k = 0 then .timerFire else .response respOK

/-- The registry entry for feature `feat-b`. -/
def descB : FeatureDescriptor :=
  ⟨"feat-b", "Feature B", "https://b.example", some "https://b.example/api/run"⟩

/-- A feature-role instance configured with one sibling that has an API
endpoint. -/
def cfgFeatureA : GalaxyConfig := ⟨"feat-a", "Feature A", .feature, [descB]⟩

/-- A non-2xx (500) response whose parsed body has an empty-string
`error` field and no `message` field. -/
def resp500 : FetchResp := ⟨false, 500, some "", none, .jnull⟩

/-- Every attempt receives the 500 response `resp500`. -/
def env500 : Nat → AttemptEvent := fun _ => .response resp500

/-! ### C10 -/

/-- Claim C10 (confirmed): invoked with `retries = 0`, `callFeatureAPI`
makes no network attempt at all (empty attempt trace) and returns the
failed result `error = 'Unknown error'`, `message = 'All retry attempts
failed'`, without raising. -/
theorem callFeatureAPI_zero_retries (role : AppType) (ts : String)
    (env : Nat → AttemptEvent) (payload : JObj) (t : Nat) :
    (callFeatureAPI role ts env payload t 0).result =
      ⟨false, none, some "Unknown error", some "All retry attempts failed"⟩ ∧
    (callFeatureAPI role ts env payload t 0).outcomes = [] :=
  ⟨rfl, rfl⟩

/-! ### C1 -/

/-- Claim C1 counterexample: `orchestrateFeatures` invoked on a
non-core (feature-role) instance does not return a failed result value;
it raises (`throw new Error(...)`, modelled as `Except.error`), so the
role violation escapes the operation as a fault. -/
theorem orchestrate_role_violation_cex :
    (orchestrateFeatures cfgFeatureA "t0" netEnvRefused ["feat-b"] []).outcome =
      Except.error "Orchestration is only available for core apps" := rfl

/-- Claim C1 (corrected): for every feature-id list, payload and
non-core (feature-role) instance, `orchestrateFeatures` raises the
fault `Error('Orchestration is only available for core apps')` across
the call boundary — it does not return a failed result value — though it
does so without attempting any network call. -/
theorem orchestrate_role_violation_raises (cfg : GalaxyConfig) (ts : String)
    (netEnv : String → Nat → AttemptEvent) (featureIds : List String) (payload : JObj)
    (h : cfg.type = AppType.feature) :
    (orchestrateFeatures cfg ts netEnv featureIds payload).outcome =
      Except.error "Orchestration is only available for core apps" ∧
    (orchestrateFeatures cfg ts netEnv featureIds payload).attempted = [] := by
  constructor <;> simp [orchestrateFeatures, h]

/-- Witness for C1's corrected theorem at a concrete feature-role
configuration. -/
theorem orchestrate_role_violation_raises_witness :
    cfgFeatureA.type = AppType.feature ∧
    ((orchestrateFeatures cfgFeatureA "t0" netEnvRefused ["feat-b"] []).outcome =
      Except.error "Orchestration is only available for core apps" ∧
     (orchestrateFeatures cfgFeatureA "t0" netEnvRefused ["feat-b"] []).attempted = []) :=
  ⟨rfl, orchestrate_role_violation_raises cfgFeatureA "t0" netEnvRefused ["feat-b"] [] rfl⟩

/-! ### C2 -/

/-- Claim C2 counterexample: with `retries = 2` and the single shared
timeout expiring during attempt 0, attempt 1 is issued with the same,
already-expired token and is aborted too — even though the server would
have answered 200 on attempt 1 — so one timeout expiry aborts more than
one attempt and the second attempt does not get a fresh token. -/
theorem shared_timeout_aborts_both_attempts_cex :
    (callFeatureAPI .core "t0" envTimerThenOK [] 30000 2).outcomes =
      [.abortedOut, .abortedOut] ∧
    envTimerThenOK 1 = .response respOK ∧
    (callFeatureAPI .core "t0" envTimerThenOK [] 30000 2).result.error =
      some "Request timeout" :=
  ⟨rfl, rfl, rfl⟩

/-- Claim C2 (corrected): a `callFeatureAPI` call owns a single
timeout/cancellation token created once and shared by all its attempts;
once any attempt ends aborted, every later attempt of the same call is
also aborted (it is issued with the already-expired token), so a single
timeout expiry aborts the remainder of the call rather than only its own
attempt. -/
theorem callFeatureAPI_shared_token_sticky (role : AppType) (ts : String)
    (env : Nat → AttemptEvent) (payload : JObj) (t n i j : Nat) (x : AttemptOutcome)
    (hij : i < j)
    (hi : (callFeatureAPI role ts env payload t n).outcomes.get? i =
      some AttemptOutcome.abortedOut)
    (hj : (callFeatureAPI role ts env payload t n).outcomes.get? j = some x) :
    x = AttemptOutcome.abortedOut :=
  attemptLoop_abort_sticky env t n 0 ⟨false, true⟩ i j x hij hi hj

/-- Witness for C2's corrected theorem at the concrete
timer-fires-on-attempt-0 environment. -/
theorem callFeatureAPI_shared_token_sticky_witness :
    (0 : Nat) < 1 ∧
    (callFeatureAPI .core "t0" envTimerThenOK [] 30000 2).outcomes.get? 0 =
      some AttemptOutcome.abortedOut ∧
    (callFeatureAPI .core "t0" envTimerThenOK [] 30000 2).outcomes.get? 1 =
      some AttemptOutcome.abortedOut ∧
    AttemptOutcome.abortedOut = AttemptOutcome.abortedOut :=
  ⟨by omega, rfl, rfl,
   callFeatureAPI_shared_token_sticky .core "t0" envTimerThenOK [] 30000 2 0 1
     AttemptOutcome.abortedOut (by omega) rfl rfl⟩

/-! ### C4 -/

/-- Claim C4 (confirmed): for `maxAttempts = n ≥ 1` against an endpoint
whose every attempt fails at the transport level, `callFeatureAPI` makes
exactly `n` attempts, sleeps a total of `Σ_(k=0)^(n-2) 2^k` seconds of
backoff, and returns a failed result whose `error` is `'Request
timeout'` when the final failure is a cancellation and the transport
error's own message otherwise. -/
theorem callFeatureAPI_retry_bound (role : AppType) (ts : String)
    (env : Nat → AttemptEvent) (payload : JObj) (t n : Nat)
    (hn : 0 < n) (H : ∀ k, (env k).isResp = false) :
    (callFeatureAPI role ts env payload t n).outcomes.length = n ∧
    (callFeatureAPI role ts env payload t n).sleepSec =
      Finset.sum (Finset.range (n - 1)) (fun k => 2 ^ k) ∧
    (callFeatureAPI role ts env payload t n).result.success = false ∧
    (((callFeatureAPI role ts env payload t n).outcomes.getLast? =
        some AttemptOutcome.abortedOut ∧
      (callFeatureAPI role ts env payload t n).result.error = some "Request timeout") ∨
     (∃ m, (callFeatureAPI role ts env payload t n).outcomes.getLast? =
        some (AttemptOutcome.failedOut m) ∧
      (callFeatureAPI role ts env payload t n).result.error = some m)) := by
  obtain ⟨hlen, hsleep, hsucc, hlast⟩ := attemptLoop_transport env t H n 0 ⟨false, true⟩ hn
  refine ⟨hlen, ?_, hsucc, hlast⟩
  rw [sum_two_pow]
  simpa using hsleep

/-- Witness for C4 at `n = 3` against an always-refused endpoint. -/
theorem callFeatureAPI_retry_bound_witness :
    (0 : Nat) < 3 ∧
    ((callFeatureAPI .core "t0" envRefused [] 30000 3).outcomes.length = 3 ∧
     (callFeatureAPI .core "t0" envRefused [] 30000 3).sleepSec =
       Finset.sum (Finset.range 2) (fun k => 2 ^ k) ∧
     (callFeatureAPI .core "t0" envRefused [] 30000 3).result.success = false ∧
     (((callFeatureAPI .core "t0" envRefused [] 30000 3).outcomes.getLast? =
         some AttemptOutcome.abortedOut ∧
       (callFeatureAPI .core "t0" envRefused [] 30000 3).result.error =
         some "Request timeout") ∨
      (∃ m, (callFeatureAPI .core "t0" envRefused [] 30000 3).outcomes.getLast? =
         some (AttemptOutcome.failedOut m) ∧
       (callFeatureAPI .core "t0" envRefused [] 30000 3).result.error = some m))) :=
  ⟨by omega, callFeatureAPI_retry_bound .core "t0" envRefused [] 30000 3 (by omega)
    (fun _ => rfl)⟩

/-! ### C5 -/

/-- Claim C5 counterexample: an attempt receiving a 500 whose body
carries a *present but empty* `error` field does not return that field;
the JS `||` treats `""` as falsy, so the synthesized message is returned
instead. -/
theorem http_error_empty_field_cex :
    resp500.bodyError = some "" ∧
    (callFeatureAPI .core "t0" env500 [] 30000 1).result.error =
      some "API request failed with status 500" ∧
    (callFeatureAPI .core "t0" env500 [] 30000 1).result.error ≠ some "" :=
  ⟨rfl, rfl, fun h => absurd (Option.some.inj h) (by decide)⟩

/-- Claim C5 (corrected): an attempt that receives a non-2xx response
returns immediately as a failed result with no further retry attempts,
where `error` is the response body's `error` field when that field is
present and non-empty (JS `||` truthiness: an absent *or empty-string*
field falls back to the synthesized `'API request failed with status
<code>'`), and `message` is the body's `message` field (absent when the
body has none). -/
theorem callFeatureAPI_http_error_no_retry (role : AppType) (ts : String)
    (env : Nat → AttemptEvent) (payload : JObj) (t n k : Nat) (r : FetchResp)
    (hk : (callFeatureAPI role ts env payload t n).outcomes.get? k =
      some (AttemptOutcome.gotResponse r))
    (hok : r.ok = false) :
    (callFeatureAPI role ts env payload t n).outcomes.length = k + 1 ∧
    (callFeatureAPI role ts env payload t n).result =
      ⟨false, none,
       some (jsOrElse r.bodyError ("API request failed with status " ++ toString r.status)),
       r.bodyMessage⟩ := by
  obtain ⟨hlen, hres⟩ := attemptLoop_resp_immediate env t n 0 ⟨false, true⟩ k r hk
  exact ⟨hlen, hres hok⟩

/-- Witness for C5's corrected theorem: a 500 on attempt 0 with three
permitted attempts still returns at once. -/
theorem callFeatureAPI_http_error_no_retry_witness :
    (callFeatureAPI .core "t0" env500 [] 30000 3).outcomes.get? 0 =
      some (AttemptOutcome.gotResponse resp500) ∧
    resp500.ok = false ∧
    ((callFeatureAPI .core "t0" env500 [] 30000 3).outcomes.length = 0 + 1 ∧
     (callFeatureAPI .core "t0" env500 [] 30000 3).result =
       ⟨false, none,
        some (jsOrElse resp500.bodyError
          ("API request failed with status " ++ toString resp500.status)),
        resp500.bodyMessage⟩) :=
  ⟨rfl, rfl, callFeatureAPI_http_error_no_retry .core "t0" env500 [] 30000 3 0 resp500 rfl rfl⟩

/-! ### C3 -/

/-- Claim C3 counterexample: the wire body of a successful sibling call
carries `_caller` *and also* `_metadata` (injected by the delegated
`callFeatureAPI`), contradicting "instead of the `_metadata` object". -/
theorem sibling_envelope_cex :
    ((callSiblingFeature cfgFeatureA "t0" netEnvRefused "feat-b" []).attempted.map
      (fun p => (hasKey p.2 "_caller", hasKey p.2 "_metadata"))) = some (true, true) := rfl

/-- Claim C3 (corrected): for a sibling call by a feature-role instance
whose registry resolves the sibling to a descriptor with an
`apiEndpoint`, the wire body is the caller payload with *both* an
injected `_caller` object `\x7b id, name, type: 'sibling' \x7d` and the
injected `_metadata` object (added by the delegated `callFeatureAPI`
with `callerType = 'feature'`). -/
theorem sibling_envelope_both (cfg : GalaxyConfig) (ts : String)
    (netEnv : String → Nat → AttemptEvent) (sid : String) (payload : JObj)
    (sib : FeatureDescriptor) (ep : String)
    (hrole : cfg.type = AppType.feature)
    (hfind : cfg.related.find? (fun f => decide (f.id = sid)) = some sib)
    (hep : sib.apiEndpoint = some ep) :
    (callSiblingFeature cfg ts netEnv sid payload).attempted =
      some (ep, objSet (objSet payload "_caller" (callerVal cfg)) "_metadata"
        (metadataVal AppType.feature ts)) ∧
    getField (objSet (objSet payload "_caller" (callerVal cfg)) "_metadata"
        (metadataVal AppType.feature ts)) "_caller" = some (callerVal cfg) ∧
    getField (objSet (objSet payload "_caller" (callerVal cfg)) "_metadata"
        (metadataVal AppType.feature ts)) "_metadata" =
      some (metadataVal AppType.feature ts) := by
  refine ⟨?_, ?_, ?_⟩
  · simp [callSiblingFeature, callFeatureAPI, hrole, hfind, hep]
  · rw [getField_objSet_ne _ _ _ _ (by decide)]
    exact getField_objSet_self _ _ _
  · exact getField_objSet_self _ _ _

/-- Witness for C3's corrected theorem at the concrete sibling
configuration. -/
theorem sibling_envelope_both_witness :
    cfgFeatureA.type = AppType.feature ∧
    cfgFeatureA.related.find? (fun f => decide (f.id = "feat-b")) = some descB ∧
    descB.apiEndpoint = some "https://b.example/api/run" ∧
    ((callSiblingFeature cfgFeatureA "t0" netEnvRefused "feat-b" []).attempted =
      some ("https://b.example/api/run",
        objSet (objSet [] "_caller" (callerVal cfgFeatureA)) "_metadata"
          (metadataVal AppType.feature "t0")) ∧
     getField (objSet (objSet [] "_caller" (callerVal cfgFeatureA)) "_metadata"
        (metadataVal AppType.feature "t0")) "_caller" = some (callerVal cfgFeatureA) ∧
     getField (objSet (objSet [] "_caller" (callerVal cfgFeatureA)) "_metadata"
        (metadataVal AppType.feature "t0")) "_metadata" =
      some (metadataVal AppType.feature "t0")) :=
  ⟨rfl, rfl, rfl,
   sibling_envelope_both cfgFeatureA "t0" netEnvRefused "feat-b" [] descB
     "https://b.example/api/run" rfl rfl rfl⟩

/-! ### C9 -/

/-- The character list of the `'/api/'` search pattern. -/
theorem apiPat_eq : "/api/".data = ['/', 'a', 'p', 'i', '/'] := rfl

theorem leadsWith_head (a : Char) (as : List Char) (b : Char) (bs : List Char)
    (h : leadsWith (a :: as) (b :: bs) = true) : a = b := by
  simp only [leadsWith, Bool.and_eq_true, decide_eq_true_eq] at h
  exact h.1

theorem hasSubstr_mem_head (c0 : Char) (ps cs : List Char)
    (h : hasSubstr (c0 :: ps) cs = true) : c0 ∈ cs := by
  induction cs with
  | nil => simp [hasSubstr, leadsWith] at h
  | cons c rest ih =>
    rw [hasSubstr] at h
    have h2 : leadsWith (c0 :: ps) (c :: rest) = true ∨ hasSubstr (c0 :: ps) rest = true := by
      simpa using h
    rcases h2 with h | h
    · rw [leadsWith_head c0 ps c rest h]
      exact List.mem_cons_self _ _
    · exact List.mem_cons_of_mem _ (ih h)

theorem replaceFinalSeg_isSome (cs : List Char) (h : ('/' : Char) ∈ cs) :
    ∃ r, replaceFinalSeg cs = some r := by
  induction cs with
  | nil => simp at h
  | cons c rest ih =>
    rw [replaceFinalSeg]
    cases h' : replaceFinalSeg rest with
    | some r => exact ⟨c :: r, rfl⟩
    | none =>
      rcases List.mem_cons.mp h with he | hmem
      · refine ⟨'/' :: "health".data, ?_⟩
        rw [← he]
        simp
      · obtain ⟨r, hr⟩ := ih hmem
        rw [hr] at h'
        cases h'

theorem replaceFinalSeg_rev (cs : List Char) (r : List Char)
    (h : replaceFinalSeg cs = some r) : ∃ t, r.reverse = 'h' :: t := by
  induction cs generalizing r with
  | nil => simp [replaceFinalSeg] at h
  | cons c rest ih =>
    rw [replaceFinalSeg] at h
    cases h' : replaceFinalSeg rest with
    | some r' =>
      rw [h'] at h
      obtain rfl : c :: r' = r := Option.some.inj h
      obtain ⟨t, ht⟩ := ih r' h'
      refine ⟨t ++ [c], ?_⟩
      rw [List.reverse_cons, ht]
      rfl
    | none =>
      rw [h'] at h
      by_cases hc : c = '/'
      · rw [if_pos hc] at h
        obtain rfl : '/' :: "health".data = r := Option.some.inj h
        exact ⟨['t', 'l', 'a', 'e', 'h', '/'], by decide⟩
      · rw [if_neg hc] at h
        cases h

theorem stripTrailingSlash_ends_h (r t : List Char) (ht : r.reverse = 'h' :: t) :
    stripTrailingSlash r = r := by
  rw [stripTrailingSlash, ht]
  simp

/-- Claim C9 counterexample: for an endpoint whose path does not contain
`'/api/'`, the probed URL is not the final segment replaced by
`health` — the code appends a second `/health`. -/
theorem health_url_cex :
    deriveHealthUrl "https://feature-one.com/process" =
      "https://feature-one.com/health/health" ∧
    specHealthUrl "https://feature-one.com/process" = "https://feature-one.com/health" ∧
    deriveHealthUrl "https://feature-one.com/process" ≠
      specHealthUrl "https://feature-one.com/process" :=
  ⟨by decide, by decide, by decide⟩

/-- Claim C9 (corrected): the probe URL equals the endpoint with its
final path segment replaced by `health` only for endpoints whose text
contains `'/api/'`; for other endpoints the code appends an extra
`'/health'` on top of that replacement (for a trailing-slash endpoint
the "final segment" the code replaces is the empty segment after the
last `'/'`). -/
theorem health_url_api (s : String) (h : hasSubstr "/api/".data s.data = true) :
    deriveHealthUrl s = specHealthUrl s := by
  have hs : ('/' : Char) ∈ s.data := by
    rw [apiPat_eq] at h
    exact hasSubstr_mem_head _ _ _ h
  obtain ⟨r, hr⟩ := replaceFinalSeg_isSome s.data hs
  obtain ⟨t, ht⟩ := replaceFinalSeg_rev s.data r hr
  simp only [deriveHealthUrl, specHealthUrl, hr, Option.getD_some, h, if_true,
    stripTrailingSlash_ends_h r t ht, List.append_nil]

/-- Witness for C9's corrected theorem at a concrete `'/api/'`
endpoint. -/
theorem health_url_api_witness :
    hasSubstr "/api/".data "https://feature-two.com/api/generate".data = true ∧
    deriveHealthUrl "https://feature-two.com/api/generate" =
      specHealthUrl "https://feature-two.com/api/generate" ∧
    specHealthUrl "https://feature-two.com/api/generate" =
      "https://feature-two.com/api/health" :=
  ⟨by decide, health_url_api _ (by decide), by decide⟩

/-! ### Lemmas about the results-object fold -/

theorem mem_foldl_objSet {α γ : Type} (key : γ → String) (val : γ → α) :
    ∀ (l : List γ) (acc : List (String × α)) (i : String),
      (∃ w, (i, w) ∈ l.foldl (fun acc x => objSet acc (key x) (val x)) acc) ↔
      ((∃ w, (i, w) ∈ acc) ∨ ∃ x ∈ l, key x = i) := by
  intro l
  induction l with
  | nil =>
    intro acc i
    simp
  | cons x l ih =>
    intro acc i
    rw [List.foldl_cons, ih, mem_objSet_iff]
    simp only [List.mem_cons]
    constructor
    · rintro ((h | h) | h)
      · exact Or.inl h
      · exact Or.inr ⟨x, Or.inl rfl, h.symm⟩
      · obtain ⟨y, hy, hk⟩ := h
        exact Or.inr ⟨y, Or.inr hy, hk⟩
    · rintro (h | ⟨y, (rfl | hy), hk⟩)
      · exact Or.inl (Or.inl h)
      · exact Or.inl (Or.inr hk.symm)
      · exact Or.inr ⟨y, hy, hk⟩

theorem foldl_objSet_eq_append {α γ : Type} (key : γ → String) (val : γ → α) :
    ∀ (l : List γ) (acc : List (String × α)),
      (l.map key).Nodup → (∀ x ∈ l, hasKey acc (key x) = false) →
      l.foldl (fun acc x => objSet acc (key x) (val x)) acc =
        acc ++ l.map (fun x => (key x, val x)) := by
  intro l
  induction l with
  | nil =>
    intro acc _ _
    simp
  | cons x l ih =>
    intro acc hnd hkeys
    rw [List.foldl_cons]
    have hx : hasKey acc (key x) = false := hkeys x (List.mem_cons_self _ _)
    have hobj : objSet acc (key x) (val x) = acc ++ [(key x, val x)] := by
      unfold objSet
      rw [if_neg (by simp [hx])]
    rw [List.map_cons] at hnd
    have hnd' := List.nodup_cons.mp hnd
    have hkeys' : ∀ y ∈ l, hasKey (acc ++ [(key x, val x)]) (key y) = false := by
      intro y hy
      have h1 : hasKey acc (key y) = false := hkeys y (List.mem_cons_of_mem _ hy)
      have h2 : key x ≠ key y := by
        intro he
        exact hnd'.1 (by rw [he]; exact List.mem_map_of_mem key hy)
      unfold hasKey
      rw [List.any_append]
      unfold hasKey at h1
      rw [h1]
      simp [h2]
    rw [hobj, ih (acc ++ [(key x, val x)]) hnd'.2 hkeys']
    simp [List.append_assoc]

/-! ### The core path of the orchestrator -/

/-- The set of registry descriptors `orchestrateFeatures` resolves: in
`featureIds` and carrying an `apiEndpoint`. -/
def resolvedFeatures (cfg : GalaxyConfig) (featureIds : List String) :
    List FeatureDescriptor :=
  cfg.related.filter (fun f => featureIds.contains f.id && f.apiEndpoint.isSome)

/-- The per-feature call outputs of `orchestrateFeatures` (id, endpoint,
call output), in registry order. -/
def orchResponses (cfg : GalaxyConfig) (ts : String)
    (netEnv : String → Nat → AttemptEvent) (featureIds : List String)
    (payload : JObj) : List (String × String × CallOutput) :=
  (resolvedFeatures cfg featureIds).map (fun f =>
    (f.id, f.apiEndpoint.getD "",
     callFeatureAPI cfg.type ts (netEnv (f.apiEndpoint.getD "")) payload 30000 1))

/-- The `results` object of `orchestrateFeatures`, built by JS property
assignment over the responses. -/
def orchResults (cfg : GalaxyConfig) (ts : String)
    (netEnv : String → Nat → AttemptEvent) (featureIds : List String)
    (payload : JObj) : List (String × CallResult) :=
  (orchResponses cfg ts netEnv featureIds payload).foldl
    (fun acc x => objSet acc x.1 x.2.2.result) []

/-- Unfolding equation for `orchestrateFeatures` under the core role. -/
theorem orchestrateFeatures_core (cfg : GalaxyConfig) (ts : String)
    (netEnv : String → Nat → AttemptEvent) (featureIds : List String)
    (payload : JObj) (hrole : cfg.type = AppType.core) :
    orchestrateFeatures cfg ts netEnv featureIds payload =
      ⟨Except.ok
        { success := decide (0 < ((orchResults cfg ts netEnv featureIds payload).filter
            (fun p => p.2.success)).length),
          results := orchResults cfg ts netEnv featureIds payload,
          summary := ⟨(resolvedFeatures cfg featureIds).length,
                      ((orchResults cfg ts netEnv featureIds payload).filter
                        (fun p => p.2.success)).length,
                      ((orchResults cfg ts netEnv featureIds payload).filter
                        (fun p => !p.2.success)).length⟩ },
       (orchResponses cfg ts netEnv featureIds payload).map
         (fun x => (x.2.1, x.2.2.bodySent))⟩ := by
  rw [orchestrateFeatures, if_neg (by simp [hrole])]
  rfl

/-! ### C6 -/

/-- Claim C6 (confirmed): the `results` object of a core-role
orchestration holds exactly the ids that are both requested and mapped
by some registry descriptor with a defined `apiEndpoint`; only resolved
descriptors are ever attempted; `summary.total` counts the resolved
descriptors; and an empty resolved set yields `total = 0`,
`success = false`. -/
theorem orchestrate_filtering (cfg : GalaxyConfig) (ts : String)
    (netEnv : String → Nat → AttemptEvent) (featureIds : List String)
    (payload : JObj) (r : OrchestrationResult)
    (hrole : cfg.type = AppType.core)
    (hr : (orchestrateFeatures cfg ts netEnv featureIds payload).outcome = Except.ok r) :
    (∀ i, (∃ cr, (i, cr) ∈ r.results) ↔
      (i ∈ featureIds ∧ ∃ f ∈ cfg.related, f.id = i ∧ f.apiEndpoint.isSome = true)) ∧
    (∀ ep b, (ep, b) ∈ (orchestrateFeatures cfg ts netEnv featureIds payload).attempted →
      ∃ f ∈ cfg.related, f.id ∈ featureIds ∧ f.apiEndpoint = some ep) ∧
    r.summary.total = (resolvedFeatures cfg featureIds).length ∧
    (resolvedFeatures cfg featureIds = [] →
      r.summary.total = 0 ∧ r.success = false) := by
  rw [orchestrateFeatures_core cfg ts netEnv featureIds payload hrole] at hr ⊢
  replace hr : Except.ok
      ({ success := decide (0 < ((orchResults cfg ts netEnv featureIds payload).filter
            (fun p => p.2.success)).length),
         results := orchResults cfg ts netEnv featureIds payload,
         summary := ⟨(resolvedFeatures cfg featureIds).length,
                     ((orchResults cfg ts netEnv featureIds payload).filter
                       (fun p => p.2.success)).length,
                     ((orchResults cfg ts netEnv featureIds payload).filter
                       (fun p => !p.2.success)).length⟩ } : OrchestrationResult) =
      Except.ok r := hr
  obtain rfl := Except.ok.inj hr
  refine ⟨?_, ?_, rfl, ?_⟩
  · intro i
    dsimp only
    unfold orchResults
    rw [mem_foldl_objSet (γ := String × String × CallOutput) (α := CallResult)
      (fun x => x.1) (fun x => x.2.2.result)]
    simp only [List.not_mem_nil, exists_false, false_or]
    unfold orchResponses resolvedFeatures
    simp only [List.mem_map, List.mem_filter, Bool.and_eq_true]
    constructor
    · rintro ⟨x, ⟨f, ⟨hf, hcont, hsome⟩, rfl⟩, hid⟩
      exact ⟨by rw [← hid]; exact List.elem_iff.mp hcont, f, hf, hid, hsome⟩
    · rintro ⟨hin, f, hf, hid, hsome⟩
      exact ⟨(f.id, f.apiEndpoint.getD "",
        callFeatureAPI cfg.type ts (netEnv (f.apiEndpoint.getD "")) payload 30000 1),
        ⟨f, ⟨hf, List.elem_iff.mpr (by rw [hid]; exact hin), hsome⟩, rfl⟩, hid⟩
  · intro ep b hmem
    unfold orchResponses resolvedFeatures at hmem
    simp only [List.mem_map, List.mem_filter, Bool.and_eq_true] at hmem
    obtain ⟨x, ⟨f, ⟨hf, hcont, hsome⟩, rfl⟩, hx⟩ := hmem
    obtain ⟨e, he⟩ := Option.isSome_iff_exists.mp hsome
    refine ⟨f, hf, List.elem_iff.mp hcont, ?_⟩
    have hep : f.apiEndpoint.getD "" = ep := congrArg Prod.fst hx
    rw [he] at hep ⊢
    rw [Option.getD_some] at hep
    rw [hep]
  · intro hempty
    have hresp : orchResponses cfg ts netEnv featureIds payload = [] := by
      unfold orchResponses
      rw [show resolvedFeatures cfg featureIds = [] from hempty]
      rfl
    have hres : orchResults cfg ts netEnv featureIds payload = [] := by
      unfold orchResults
      rw [hresp]
      rfl
    constructor
    · simp [hempty]
    · simp [hres]

/-- The failed result a single-attempt call produces under
`netEnvRefused`. -/
def failRefused : CallResult :=
  ⟨false, none, some "refused", some "Failed to connect to feature API"⟩

/-- A core instance whose registry has features `fa` (endpoint), `fb`
(no endpoint) and `fc` (endpoint). -/
def cfgCore6 : GalaxyConfig :=
  ⟨"core-6", "Core 6", .core,
   [⟨"fa", "Feature FA", "https://fa.example", some "https://fa.example/api/run"⟩,
    ⟨"fb", "Feature FB", "https://fb.example", none⟩,
    ⟨"fc", "Feature FC", "https://fc.example", some "https://fc.example/api/run"⟩]⟩

/-- The orchestration result for `cfgCore6` over
`["fa","fb","fc","fd"]` under `netEnvRefused`. -/
def r6 : OrchestrationResult :=
  ⟨false, [("fa", failRefused), ("fc", failRefused)], ⟨2, 0, 2⟩⟩

/-- Witness for C6 at the spec's three-feature example: `A` and `C`
carry endpoints, `B` does not, `D` is unknown. -/
theorem orchestrate_filtering_witness :
    cfgCore6.type = AppType.core ∧
    ((∀ i, (∃ cr, (i, cr) ∈ r6.results) ↔
        (i ∈ ["fa", "fb", "fc", "fd"] ∧
         ∃ f ∈ cfgCore6.related, f.id = i ∧ f.apiEndpoint.isSome = true)) ∧
     (∀ ep b,
        (ep, b) ∈ (orchestrateFeatures cfgCore6 "t0" netEnvRefused
          ["fa", "fb", "fc", "fd"] []).attempted →
        ∃ f ∈ cfgCore6.related, f.id ∈ ["fa", "fb", "fc", "fd"] ∧ f.apiEndpoint = some ep) ∧
     r6.summary.total = (resolvedFeatures cfgCore6 ["fa", "fb", "fc", "fd"]).length ∧
     (resolvedFeatures cfgCore6 ["fa", "fb", "fc", "fd"] = [] →
       r6.summary.total = 0 ∧ r6.success = false)) ∧
    r6.summary.total = 2 ∧
    (∃ cr, ("fa", cr) ∈ r6.results) ∧ (∃ cr, ("fc", cr) ∈ r6.results) ∧
    ¬(∃ cr, ("fb", cr) ∈ r6.results) ∧ ¬(∃ cr, ("fd", cr) ∈ r6.results) := by
  refine ⟨rfl, orchestrate_filtering cfgCore6 "t0" netEnvRefused
    ["fa", "fb", "fc", "fd"] [] r6 rfl rfl, rfl, ⟨failRefused, List.Mem.head _⟩,
    ⟨failRefused, List.Mem.tail _ (List.Mem.head _)⟩, ?_, ?_⟩
  · rintro ⟨cr, hcr⟩
    simp [r6] at hcr
  · rintro ⟨cr, hcr⟩
    simp [r6] at hcr

/-! ### C7 -/

/-- Claim C7 (confirmed): for every core-role orchestration over a
registry with no duplicate ids, `success = (summary.successful > 0)` and
`summary.total` equals the number of entries of the `results` object. -/
theorem orchestrate_summary_invariant (cfg : GalaxyConfig) (ts : String)
    (netEnv : String → Nat → AttemptEvent) (featureIds : List String)
    (payload : JObj) (r : OrchestrationResult)
    (hrole : cfg.type = AppType.core)
    (hnodup : (cfg.related.map FeatureDescriptor.id).Nodup)
    (hr : (orchestrateFeatures cfg ts netEnv featureIds payload).outcome = Except.ok r) :
    (r.success = true ↔ 0 < r.summary.successful) ∧
    r.summary.total = r.results.length := by
  rw [orchestrateFeatures_core cfg ts netEnv featureIds payload hrole] at hr
  replace hr : Except.ok
      ({ success := decide (0 < ((orchResults cfg ts netEnv featureIds payload).filter
            (fun p => p.2.success)).length),
         results := orchResults cfg ts netEnv featureIds payload,
         summary := ⟨(resolvedFeatures cfg featureIds).length,
                     ((orchResults cfg ts netEnv featureIds payload).filter
                       (fun p => p.2.success)).length,
                     ((orchResults cfg ts netEnv featureIds payload).filter
                       (fun p => !p.2.success)).length⟩ } : OrchestrationResult) =
      Except.ok r := hr
  obtain rfl := Except.ok.inj hr
  constructor
  · dsimp only
    exact decide_eq_true_iff
  · dsimp only
    have hidnd : ((resolvedFeatures cfg featureIds).map FeatureDescriptor.id).Nodup := by
      have hsub : List.Sublist (resolvedFeatures cfg featureIds) cfg.related :=
        List.filter_sublist _
      exact List.Nodup.sublist (hsub.map FeatureDescriptor.id) hnodup
    have hkeys : ((orchResponses cfg ts netEnv featureIds payload).map
        (fun x => x.1)).Nodup := by
      unfold orchResponses
      rw [List.map_map]
      simpa [Function.comp] using hidnd
    have heq := foldl_objSet_eq_append (γ := String × String × CallOutput)
      (α := CallResult) (fun x => x.1) (fun x => x.2.2.result)
      (orchResponses cfg ts netEnv featureIds payload) [] hkeys
      (fun x _ => rfl)
    unfold orchResults
    rw [heq]
    simp [orchResponses]

/-- Registry entry `fa7`, whose endpoint will answer 200. -/
def descA7 : FeatureDescriptor :=
  ⟨"fa7", "Feature A7", "https://a7.example", some "https://a7.example/api/run"⟩

/-- Registry entry `fc7`, whose endpoint will refuse the connection. -/
def descC7 : FeatureDescriptor :=
  ⟨"fc7", "Feature C7", "https://c7.example", some "https://c7.example/api/run"⟩

/-- A core instance with the two features `fa7` and `fc7`. -/
def cfgCore7 : GalaxyConfig := ⟨"core-7", "Core 7", .core, [descA7, descC7]⟩

/-- Environment in which `fa7`'s endpoint answers 200 and every other
endpoint refuses the connection. -/
def netEnvMixed : String → Nat → AttemptEvent :=
  fun ep _ => if ep = "https://a7.example/api/run" then .response respOK else .netFail "refused"

/-- The orchestration result for `cfgCore7` under `netEnvMixed`: one
call succeeds, one fails. -/
def r7 : OrchestrationResult :=
  ⟨true,
   [("fa7", ⟨true, some .jnull, none, none⟩), ("fc7", failRefused)],
   ⟨2, 1, 1⟩⟩

/-- Witness for C7 at the two-feature scenario of the claim: one
success and one failure give `success = true`,
`summary = \x7btotal: 2, successful: 1, failed: 1\x7d`. -/
theorem orchestrate_summary_invariant_witness :
    cfgCore7.type = AppType.core ∧
    (cfgCore7.related.map FeatureDescriptor.id).Nodup ∧
    (orchestrateFeatures cfgCore7 "t0" netEnvMixed ["fa7", "fc7"] []).outcome =
      Except.ok r7 ∧
    ((r7.success = true ↔ 0 < r7.summary.successful) ∧
     r7.summary.total = r7.results.length) ∧
    r7.success = true ∧ r7.summary.total = 2 ∧ r7.summary.successful = 1 ∧
    r7.summary.failed = 1 :=
  ⟨rfl, by decide, rfl,
   orchestrate_summary_invariant cfgCore7 "t0" netEnvMixed ["fa7", "fc7"] [] r7
     rfl (by decide) rfl,
   rfl, rfl, rfl, rfl⟩

/-! ### C8 -/

/-- A core instance with the single feature `feat-b`. -/
def cfgCore8 : GalaxyConfig := ⟨"core-8", "Core 8", .core, [descB]⟩

/-- Claim C8 counterexample: the library orchestrator
(`orchestrateFeatures`) delivers the caller payload *without*
`calledFrom`/`coreId` — the only wire body dispatched for `feat-b`
carries neither field. -/
theorem orchestrate_payload_not_augmented_cex :
    ((orchestrateFeatures cfgCore8 "t0" netEnvRefused ["feat-b"] []).attempted.map
      (fun p => (hasKey p.2 "calledFrom", hasKey p.2 "coreId"))) = [(false, false)] := rfl

/-- Claim C8 (corrected): `orchestrateFeatures` itself does not augment
the payload (see the counterexample); the augmentation happens one layer
up, in the core orchestration route handler, which dispatches the caller
payload augmented with `calledFrom = 'galaxy-core'`, `coreId` = the core
config id (and additionally `userId`): every wire body the route
dispatches to a resolved feature carries those two fields. -/
theorem route_payload_augmented (cfg : GalaxyConfig) (uid : String)
    (featuresArr : Option (List String)) (payload : JObj) (ts : String)
    (netEnv : String → Nat → AttemptEvent) (ep : String) (b : JObj)
    (hrole : cfg.type = AppType.core)
    (hmem : (ep, b) ∈
      (orchestrationPOST cfg (some uid) featuresArr payload ts netEnv).attempted) :
    getField b "calledFrom" = some (JVal.jstr "galaxy-core") ∧
    getField b "coreId" = some (JVal.jstr cfg.id) := by
  rcases featuresArr with _ | features
  · simp [orchestrationPOST, hrole] at hmem
  · simp [orchestrationPOST, hrole, callFeatureAPI] at hmem
    split at hmem
    · simp at hmem
    · simp only [List.mem_map, Function.comp] at hmem
      obtain ⟨f, hf, heq⟩ := hmem
      injection heq with hep hb
      subst hb
      constructor
      · rw [getField_objSet_ne _ _ _ _ (by decide), getField_objSet_ne _ _ _ _ (by decide),
          getField_objSet_ne _ _ _ _ (by decide)]
        exact getField_objSet_self _ _ _
      · rw [getField_objSet_ne _ _ _ _ (by decide), getField_objSet_ne _ _ _ _ (by decide)]
        exact getField_objSet_self _ _ _

/-- The wire body the route dispatches for `feat-b` in the concrete
witness scenario. -/
def body8 : JObj :=
  [("calledFrom", .jstr "galaxy-core"), ("coreId", .jstr "core-8"),
   ("userId", .jstr "user-1"), ("_metadata", metadataVal .core "t0")]

/-- Witness for C8's corrected theorem at a concrete route
invocation. -/
theorem route_payload_augmented_witness :
    cfgCore8.type = AppType.core ∧
    ("https://b.example/api/run", body8) ∈
      (orchestrationPOST cfgCore8 (some "user-1") (some ["feat-b"]) [] "t0"
        netEnvRefused).attempted ∧
    (getField body8 "calledFrom" = some (JVal.jstr "galaxy-core") ∧
     getField body8 "coreId" = some (JVal.jstr cfgCore8.id)) := by
  have hmem8 : ("https://b.example/api/run", body8) ∈
      (orchestrationPOST cfgCore8 (some "user-1") (some ["feat-b"]) [] "t0"
        netEnvRefused).attempted := List.Mem.head _
  exact ⟨rfl, hmem8,
    route_payload_augmented cfgCore8 "user-1" (some ["feat-b"]) [] "t0" netEnvRefused
      "https://b.example/api/run" body8 rfl hmem8⟩

end Galaxy
